import Mathlib

/-!
Shallow embedding of `disintegrate/src/testing.rs`, the behavioral test
harness for event-sourced decisions.

Modelling conventions:
* Rust `Vec<T>` becomes `List T`; `Result<T, E>` becomes `Except E T`;
  the `i64` sequence number becomes `Int`.
* A Rust function that can panic is embedded with an `Option` codomain:
  `none` is a panic/abort of the test, `some _` is normal return.
* The generic trait bounds of `when` (`Decision`, `IntoStatePart`,
  `MultiState`, `IntoState`) become explicit records of functions over
  which the harness stays parametric, mirroring the Rust generics.
-/

deriving instance DecidableEq for Except

/-- An event paired with its `i64` sequence number
(`PersistedEvent::new(sequence_number, event)`). -/
structure PersistedEvent (E : Type) where
  id : Int
  event : E
deriving DecidableEq, Repr

/-- The capabilities `when` demands of a decision's state query, i.e. the
trait bounds `S : IntoStatePart<i64, S, Target = SP>` and
`SP : IntoState<S> + MultiState<i64, E>`: convert the query into a mutable
accumulator, apply one persisted event to all interested sub-states, and
convert the accumulator back into the immutable state. -/
structure StateQueryOps (S SP E : Type) where
  into_state_part : S → SP
  mutate_all : SP → PersistedEvent E → SP
  into_state : SP → S

/-- The `Decision` trait as consumed by the harness: a state query and a
processing function returning either new events or a domain error. -/
structure Decision (E ERR S : Type) where
  state_query : S
  process : S → Except ERR (List E)

/-- Phase marker for the "given" step. -/
structure Given where

/-- Phase marker for the "when" step; holds the captured result. -/
structure When (R ERR : Type) where
  result : Except ERR (List R)

/-- A harness step: the supplied history plus the phase marker. -/
structure TestHarnessStep (E ST : Type) where
  history : List E
  _step : ST

/-- `TestHarness::given`: sets up a history of events. -/
def TestHarness.given {E : Type} (history : List E) : TestHarnessStep E Given :=
  { history := history, _step := Given.mk }

/-- The persisted-event sequence built inside `when`:
`history.iter().enumerate().map(|(id, event)| PersistedEvent::new((id + 1) as i64, event.clone()))`. -/
def persistedHistory {E : Type} (history : List E) : List (PersistedEvent E) :=
  history.enum.map (fun p => PersistedEvent.mk ((p.1 + 1 : Nat) : Int) p.2)

/-- `TestHarnessStep::<E, Given>::when`: obtains the accumulator from the
decision's state query, folds the persisted history into it by `mutate_all`,
converts it into a state, and captures `decision.process` of that state. -/
def TestHarnessStep.when {E ERR S SP : Type}
    (self : TestHarnessStep E Given)
    (ops : StateQueryOps S SP E) (decision : Decision E ERR S) :
    TestHarnessStep E (When E ERR) :=
  let state :=
    (persistedHistory self.history).foldl ops.mutate_all
      (ops.into_state_part decision.state_query)
  let result := decision.process (ops.into_state state)
  { history := self.history, _step := { result := result } }

/-- `TestHarnessStep::then`: `assert_eq!(Ok(expected.into()), self._step.result)`.
Returns `some ()` when the assertion passes and `none` when it panics. -/
def TestHarnessStep.«then» {E R ERR : Type} [DecidableEq R] [DecidableEq ERR]
    (self : TestHarnessStep E (When R ERR)) (expected : List R) : Option Unit :=
  if Except.ok expected = self._step.result then some () else none

/-- `TestHarnessStep::then_assert`: `assertion(&self._step.result.unwrap())`.
The inspector is kept abstract with codomain `α`; `none` is the panic of
`unwrap` on the failure variant, `some (assertion events)` is the single
invocation of the inspector on the success variant's events. -/
def TestHarnessStep.then_assert {E R ERR α : Type}
    (self : TestHarnessStep E (When R ERR)) (assertion : List R → α) : Option α :=
  match self._step.result with
  | Except.ok events => some (assertion events)
  | Except.error _ => none

/-- `TestHarnessStep::then_err`: `let err = self._step.result.unwrap_err();
assert_eq!(err, expected)`. `none` is a panic (of `unwrap_err` on the success
variant, or of the equality assertion); `some ()` is a pass. -/
def TestHarnessStep.then_err {E R ERR : Type} [DecidableEq ERR]
    (self : TestHarnessStep E (When R ERR)) (expected : ERR) : Option Unit :=
  match self._step.result with
  | Except.ok _ => none
  | Except.error err => if err = expected then some () else none

/-- The observable interactions a run of `when` has with the decision and
its state query: asking for the state query, one `mutate_all` per persisted
event, and the single `process` call. -/
inductive HarnessCall (E : Type) where
  | state_query_call : HarnessCall E
  | mutate : PersistedEvent E → HarnessCall E
  | process_call : HarnessCall E
deriving DecidableEq, Repr

/-- A logging instantiation of the state-query capabilities: the accumulator
is the list of calls observed so far, and `mutate_all` records its event. -/
def traceOps (E : Type) : StateQueryOps (List (HarnessCall E)) (List (HarnessCall E)) E where
  into_state_part := fun s => s
  mutate_all := fun acc ev => acc ++ [HarnessCall.mutate ev]
  into_state := fun s => s

/-- A logging decision: its state query records that it was asked for, and
`process` records its own call and returns the failure variant, so the
accumulated call trace of a run is observable in the captured result even
when the run ends in an error. -/
def traceDecision (E : Type) : Decision E (List (HarnessCall E)) (List (HarnessCall E)) where
  state_query := [HarnessCall.state_query_call]
  process := fun s => Except.error (s ++ [HarnessCall.process_call])

/-- The two phases of the typestate marker on `TestHarnessStep`. -/
inductive PhaseTag where
  | givenPhase : PhaseTag
  | whenPhase : PhaseTag
deriving DecidableEq, Repr

/-- The harness-step type each phase tag stands for. -/
def PhaseType (E ERR : Type) : PhaseTag → Type
  | PhaseTag.givenPhase => TestHarnessStep E Given
  | PhaseTag.whenPhase => TestHarnessStep E (When E ERR)

/-- Terms of the public harness API, indexed by the phase of the value they
build. The Rust struct's fields are private, so outside the module a harness
step can only be obtained through the public signatures: `TestHarness::given`
is the only producer of a `Given`-phase step, and `when` — which consumes a
`Given`-phase step — is the only producer of a `When`-phase step. Each
constructor here is one of those signatures. -/
inductive ApiTerm (E ERR S SP : Type) : PhaseTag → Type where
  | given_call (history : List E) : ApiTerm E ERR S SP PhaseTag.givenPhase
  | when_call (prev : ApiTerm E ERR S SP PhaseTag.givenPhase)
      (ops : StateQueryOps S SP E) (decision : Decision E ERR S) :
      ApiTerm E ERR S SP PhaseTag.whenPhase

/-- Evaluate an API term to the harness step it builds. -/
def ApiTerm.run {E ERR S SP : Type} : {t : PhaseTag} → ApiTerm E ERR S SP t → PhaseType E ERR t
  | _, ApiTerm.given_call history => TestHarness.given history
  | _, ApiTerm.when_call prev ops decision => (ApiTerm.run prev).when ops decision

/-- How many `given` calls an API term contains. -/
def ApiTerm.givenCount {E ERR S SP : Type} : {t : PhaseTag} → ApiTerm E ERR S SP t → Nat
  | _, ApiTerm.given_call _ => 1
  | _, ApiTerm.when_call prev _ _ => ApiTerm.givenCount prev

/-- How many `when` calls an API term contains. -/
def ApiTerm.whenCount {E ERR S SP : Type} : {t : PhaseTag} → ApiTerm E ERR S SP t → Nat
  | _, ApiTerm.given_call _ => 0
  | _, ApiTerm.when_call prev _ _ => ApiTerm.whenCount prev + 1

example :
    ((TestHarness.given [10, 20]).when
      (StateQueryOps.mk (fun s => s) (fun acc ev => acc + ev.event) (fun s => s))
      (Decision.mk (0 : Int) (fun s => (Except.ok [s] : Except String (List Int)))))._step.result
    = Except.ok [30] := by decide

example :
    ((TestHarness.given ([] : List Int)).when
      (StateQueryOps.mk (fun s => s) (fun acc ev => acc + ev.event) (fun s => s))
      (Decision.mk (0 : Int) (fun s => (Except.ok [s] : Except String (List Int)))))._step.result
    = Except.ok [0] := by decide

/-- Unfolding of `when`: the captured result is `process` applied to the
state obtained by folding the persisted history into the fresh accumulator
derived from the decision's state query. -/
theorem when_result_eq {E ERR S SP : Type}
    (self : TestHarnessStep E Given)
    (ops : StateQueryOps S SP E) (decision : Decision E ERR S) :
    (self.when ops decision)._step.result
      = decision.process (ops.into_state
          ((persistedHistory self.history).foldl ops.mutate_all
            (ops.into_state_part decision.state_query))) := rfl

/-- The persisted history has one entry per supplied event. -/
theorem persistedHistory_length {E : Type} (history : List E) :
    (persistedHistory history).length = history.length := by
  simp [persistedHistory]

/-- Entry `i` of the persisted history wraps event `i` with sequence number
`i + 1`. -/
theorem persistedHistory_get? {E : Type} (history : List E) (i : Nat) :
    (persistedHistory history).get? i
      = (history.get? i).map (fun e => PersistedEvent.mk ((i + 1 : Nat) : Int) e) := by
  simp [persistedHistory, List.get?_map, List.get?_enum, Option.map_map]
  rfl

/-- A left fold that appends one image per element produces the mapped list. -/
theorem foldl_push_map {α β : Type} (f : α → β) (l : List α) (init : List β) :
    l.foldl (fun acc a => acc ++ [f a]) init = init ++ l.map f := by
  induction l generalizing init with
  | nil => simp
  | cons a t ih => simp [List.foldl_cons, ih]

/-- C1: `then(expected_events)` panics exactly when the captured result is
not the success variant carrying exactly `expected_events` (list equality:
same length, same events, same order, structural equality per event), and on
a failure-variant result it always panics. -/
theorem then_panics_iff_mismatch {E R ERR : Type} [DecidableEq R] [DecidableEq ERR]
    (self : TestHarnessStep E (When R ERR)) (expected : List R) :
    (self.«then» expected = none ↔ self._step.result ≠ Except.ok expected)
    ∧ (self.«then» expected = some () ↔ self._step.result = Except.ok expected)
    ∧ ∀ err : ERR, self._step.result = Except.error err → self.«then» expected = none := by
  refine ⟨?_, ?_, ?_⟩ <;> unfold TestHarnessStep.«then»
  · split <;> simp_all [eq_comm]
  · split <;> simp_all [eq_comm]
  · intro err h
    simp [h]

/-- Witness for C1: at a concrete failure-variant step, `then` panics. -/
theorem then_panics_iff_mismatch_witness :
    (TestHarnessStep.mk [1] { result := Except.error "boom" }
      : TestHarnessStep Nat (When Nat String)).«then» [2] = none :=
  (then_panics_iff_mismatch _ [2]).2.2 "boom" rfl

/-- C2: `then_err(expected)` passes exactly when the captured result is the
failure variant carrying an error equal to `expected`, and panics exactly
when the result is the success variant or a failure with a different
error. -/
theorem then_err_passes_iff_expected_error {E R ERR : Type} [DecidableEq ERR]
    (self : TestHarnessStep E (When R ERR)) (expected : ERR) :
    (self.then_err expected = some () ↔ self._step.result = Except.error expected)
    ∧ (self.then_err expected = none ↔
        ((∃ events, self._step.result = Except.ok events)
          ∨ ∃ err, self._step.result = Except.error err ∧ err ≠ expected)) := by
  unfold TestHarnessStep.then_err
  cases h : self._step.result with
  | ok events => simp [h]
  | error err => by_cases he : err = expected <;> simp [h, he]

/-- Witness for C2: at a concrete failure-variant step carrying the expected
error, `then_err` passes. -/
theorem then_err_passes_iff_expected_error_witness :
    (TestHarnessStep.mk ([] : List Nat) { result := Except.error "e" }
      : TestHarnessStep Nat (When Nat String)).then_err "e" = some () :=
  (then_err_passes_iff_expected_error _ "e").1.mpr rfl

/-- C3: `given(history).when(decision)` folds exactly `history.length`
persisted events into the accumulator obtained from the decision's state
query, the fold step at 0-based position `i` applying
`PersistedEvent::new(i + 1, history[i])` — 1-based sequence numbers equal to
each event's position, in the original order of the supplied history. -/
theorem when_applies_history_in_order {E ERR S SP : Type}
    (history : List E) (ops : StateQueryOps S SP E) (decision : Decision E ERR S) :
    ((TestHarness.given history).when ops decision)._step.result
      = decision.process (ops.into_state
          ((persistedHistory history).foldl ops.mutate_all
            (ops.into_state_part decision.state_query)))
    ∧ (persistedHistory history).length = history.length
    ∧ ∀ i : Nat, ∀ h : i < history.length,
        (persistedHistory history).get? i
          = some (PersistedEvent.mk ((i + 1 : Nat) : Int) (history.get ⟨i, h⟩)) := by
  refine ⟨rfl, persistedHistory_length history, ?_⟩
  intro i h
  rw [persistedHistory_get?, List.get?_eq_get h]
  rfl

/-- Witness for C3: in the persisted form of `[7, 8, 9]`, position 1 holds
event 8 with sequence number 2. -/
theorem when_applies_history_in_order_witness :
    (persistedHistory [(7 : Nat), 8, 9]).get? 1 = some (PersistedEvent.mk 2 8) :=
  (when_applies_history_in_order [(7 : Nat), 8, 9]
      (StateQueryOps.mk (fun s => s) (fun acc ev => acc + ev.event) (fun s => s))
      (Decision.mk (0 : Nat) (fun s => (Except.ok [s] : Except String (List Nat))))).2.2
    1 (by decide)

/-- C4: on a failure-variant result `then_assert` aborts (the `unwrap`
panic) with the inspector never entering the output, and on a
success-variant result it invokes the inspector exactly once on that
result's full ordered event list. -/
theorem then_assert_gating {E R ERR α : Type}
    (self : TestHarnessStep E (When R ERR)) (assertion : List R → α) :
    (∀ err : ERR, self._step.result = Except.error err →
        self.then_assert assertion = none)
    ∧ ∀ events : List R, self._step.result = Except.ok events →
        self.then_assert assertion = some (assertion events) := by
  unfold TestHarnessStep.then_assert
  constructor <;> (intro x h; simp [h])

/-- Witness for C4: at a concrete failure-variant step, `then_assert` aborts
without producing an inspector value. -/
theorem then_assert_gating_witness :
    (TestHarnessStep.mk ([] : List Nat) { result := Except.error "e" }
      : TestHarnessStep Nat (When Nat String)).then_assert
        (fun events => events.length) = none :=
  (then_assert_gating _ (fun events => events.length)).1 "e" rfl

/-- C5: the captured result is `process` applied — once — to the state folded
from the full persisted history starting from the state query's accumulator;
and under the logging capabilities the observable interaction trace is the
state query first, then one mutation per persisted event in order, then the
single `process` call last, even though that run captures the failure
variant (the fold is unconditional). -/
theorem when_invocation_order {E ERR S SP : Type}
    (history : List E) (ops : StateQueryOps S SP E) (decision : Decision E ERR S) :
    ((TestHarness.given history).when ops decision)._step.result
      = decision.process (ops.into_state
          ((persistedHistory history).foldl ops.mutate_all
            (ops.into_state_part decision.state_query)))
    ∧ ((TestHarness.given history).when (traceOps E) (traceDecision E))._step.result
      = Except.error ([HarnessCall.state_query_call]
          ++ (persistedHistory history).map HarnessCall.mutate
          ++ [HarnessCall.process_call]) := by
  refine ⟨rfl, ?_⟩
  rw [when_result_eq]
  simp [TestHarness.given, traceOps, traceDecision, foldl_push_map]

/-- C6: with the empty history the fold performs zero mutation steps, so
`process` receives the state converted directly from the fresh accumulator
of the decision's state query. -/
theorem when_empty_history {E ERR S SP : Type}
    (ops : StateQueryOps S SP E) (decision : Decision E ERR S) :
    persistedHistory ([] : List E) = []
    ∧ ((TestHarness.given ([] : List E)).when ops decision)._step.result
      = decision.process (ops.into_state (ops.into_state_part decision.state_query)) :=
  ⟨rfl, rfl⟩

/-- C7: two separate runs on equal histories with the same decision capture
identical results — the derivation-and-invocation pipeline is a pure
function of the history and the decision. -/
theorem when_deterministic {E ERR S SP : Type} (h1 h2 : List E)
    (ops : StateQueryOps S SP E) (decision : Decision E ERR S) (hEq : h1 = h2) :
    ((TestHarness.given h1).when ops decision)._step.result
      = ((TestHarness.given h2).when ops decision)._step.result := by
  rw [hEq]

/-- Witness for C7: two separately built runs over the history `[1]` agree. -/
theorem when_deterministic_witness :
    ((TestHarness.given [(1 : Nat)]).when
        (StateQueryOps.mk (fun s => s) (fun acc ev => acc + ev.event) (fun s => s))
        (Decision.mk (0 : Nat)
          (fun s => (Except.ok [s] : Except String (List Nat)))))._step.result
      = ((TestHarness.given [(1 : Nat)]).when
        (StateQueryOps.mk (fun s => s) (fun acc ev => acc + ev.event) (fun s => s))
        (Decision.mk (0 : Nat)
          (fun s => (Except.ok [s] : Except String (List Nat)))))._step.result :=
  when_deterministic [(1 : Nat)] [(1 : Nat)] _ _ rfl

/-- C8: `when` carries the supplied history across the phase transition
unchanged; only the phase marker component differs, now holding the captured
result. -/
theorem when_preserves_history {E ERR S SP : Type}
    (self : TestHarnessStep E Given) (ops : StateQueryOps S SP E)
    (decision : Decision E ERR S) :
    (self.when ops decision).history = self.history := rfl

/-- C9: in the term language of the public API — the only way to obtain
harness steps, the Rust struct's fields being private — every `When`-phase
value contains exactly one `given` call and exactly one `when` call and
evaluates to `(given history).when ops decision`, and every `Given`-phase
value contains exactly one `given` call and no `when` call. The three
assertions are typed only on `When`-phase steps and `when` only on
`Given`-phase steps, so the ordering is enforced by typing (ill-phased call
sequences are not expressible), not by a runtime check. -/
theorem phase_discipline {E ERR S SP : Type}
    (e : ApiTerm E ERR S SP PhaseTag.whenPhase) :
    (ApiTerm.givenCount e = 1 ∧ ApiTerm.whenCount e = 1
      ∧ ∃ history : List E, ∃ ops : StateQueryOps S SP E, ∃ decision : Decision E ERR S,
          ApiTerm.run e = (TestHarness.given history).when ops decision)
    ∧ ∀ g : ApiTerm E ERR S SP PhaseTag.givenPhase,
        ApiTerm.givenCount g = 1 ∧ ApiTerm.whenCount g = 0
          ∧ ∃ history : List E, ApiTerm.run g = TestHarness.given history := by
  constructor
  · cases e with
    | when_call prev ops decision =>
      cases prev with
      | given_call history => exact ⟨rfl, rfl, history, ops, decision, rfl⟩
  · intro g
    cases g with
    | given_call history => exact ⟨rfl, rfl, history, rfl⟩

/-- C10: `then_assert` performs no equality or content check of its own: on
a success-variant result its outcome is exactly the inspector's outcome on
the events, the call passes precisely when the inspector returns without
panicking, and the no-op inspector accepts the result whatever events it
carries. -/
theorem then_assert_no_content_check {E R ERR : Type}
    (self : TestHarnessStep E (When R ERR)) (events : List R)
    (inspector : List R → Option Unit)
    (h : self._step.result = Except.ok events) :
    (self.then_assert inspector = some (inspector events))
    ∧ (self.then_assert inspector = some (some ()) ↔ inspector events = some ())
    ∧ self.then_assert (fun _ => some ()) = some (some ()) := by
  unfold TestHarnessStep.then_assert
  simp [h]

/-- Witness for C10: a no-op inspector accepts a concrete success result. -/
theorem then_assert_no_content_check_witness :
    (TestHarnessStep.mk ([] : List Nat) { result := Except.ok [5] }
      : TestHarnessStep Nat (When Nat String)).then_assert
        (fun _ => some ()) = some (some ()) :=
  (then_assert_no_content_check _ [5] (fun _ => some ()) rfl).2.2
